import Mathlib

/-!
Verification of the Ax benchmark replication loop (`ax/benchmark/benchmark.py`)
via a shallow embedding in Lean.

Numeric values (floats in the source) are modelled as exact rationals `ℚ`;
Python dicts of parameters are modelled as association lists with Python's
insertion/update semantics; the wall clock, the scheduler's yielded progress
steps, the method's best-point answers and the backend simulator's time are
modelled as explicit inputs to the loop, since they are external to the code
under verification.
-/

deriving instance DecidableEq for Except

namespace AxBenchmark

/-- A parameter value (`TParamValue` in the source). -/
abbrev Value := Int

/-- A parameterization: an ordered mapping from parameter names to values,
modelling a Python dict. -/
abbrev Params := List (String × Value)

/-- An arm: a name together with a parameterization. -/
abbrev Arm := String × Params

/-- Python dict item assignment `d[k] = v`: update the first matching key in
place, else append.  (Python dicts never hold duplicate keys, so on the lists
that model them the first match is the only one.) -/
def dictInsert : Params → String × Value → Params
  | [], kv => [kv]
  | p :: rest, kv => if p.1 = kv.1 then kv :: rest else p :: dictInsert rest kv

/-- Python dict merge `{**base, **override}`: keys of `override` win. -/
def dictMerge (base override : Params) : Params :=
  override.foldl dictInsert base

/-- Python dict lookup `d.get(k)`. -/
def lookupParam : Params → String → Option Value
  | [], _ => none
  | p :: rest, k => if p.1 = k then some p.2 else lookupParam rest k

/-- Trial statuses (`ax.core.trial_status.TrialStatus`), as listed in the
data model. -/
inductive TrialStatus where
  | CANDIDATE
  | STAGED
  | RUNNING
  | COMPLETED
  | EARLY_STOPPED
  | ABANDONED
  | FAILED
deriving DecidableEq, Repr

/-- The status test on line 380-384 of `benchmark.py`:
`t.status in (TrialStatus.COMPLETED, TrialStatus.EARLY_STOPPED)`. -/
def TrialStatus.isCompletedOrEarlyStopped : TrialStatus → Bool
  | .COMPLETED => true
  | .EARLY_STOPPED => true
  | _ => false

/-! ### Score/trace math (`compute_score_trace`) -/

/-- Definition of `compute_score_trace` from `benchmark.py`:
`100 * (optimization_trace - baseline_value) / (optimal_value - baseline_value)`,
applied elementwise (the source applies it to a numpy array). -/
def compute_score_trace (optimization_trace : List ℚ)
    (baseline_value optimal_value : ℚ) : List ℚ :=
  optimization_trace.map
    (fun v => 100 * (v - baseline_value) / (optimal_value - baseline_value))

/-! ### Cost accumulator (`_get_cumulative_cost`) -/

/-- Definition of `_get_cumulative_cost` from `benchmark.py`.  The runner's attached
simulated backend, when present, supplies `simulated_time` (the source reads
`runner.simulated_backend_runner.simulator.time`); `totalRuntime i` models
`get_total_runtime(trial=experiment.trials[i], step_runtime_function=...,
n_steps=...)`, a function defined outside this excerpt whose arguments other
than the trial are fixed for the whole replication. -/
def _get_cumulative_cost (simulated_time : Option ℚ) (totalRuntime : ℕ → ℚ)
    (previous_cost : ℚ) (new_trials : Finset ℕ) : ℚ :=
  match simulated_time with
  | some t => t
  | none => previous_cost + ∑ i ∈ new_trials, totalRuntime i

/-! ### Scheduler options (`get_benchmark_scheduler_options`) -/

inductive TrialType where
  | TRIAL
  | BATCH_TRIAL
deriving DecidableEq, Repr

/-- The fields of `BenchmarkMethod` consumed by `get_benchmark_scheduler_options`
and `benchmark_replication`. -/
structure MethodConfig where
  batch_size : Option Int
  max_pending_trials : ℕ
  run_trials_in_batches : Bool
  timeout_hours : Option ℚ

/-- The fields of `SchedulerOptions` set by `get_benchmark_scheduler_options`. -/
structure SchedulerOptions where
  max_pending_trials : ℕ
  init_seconds_between_polls : ℕ
  min_seconds_before_poll : ℕ
  trial_type : TrialType
  batch_size : Option Int
  run_trials_in_batches : Bool
  status_quo_weight : ℚ
  logging_level : ℕ

/-- Definition of `get_benchmark_scheduler_options` from `benchmark.py`.  The trial type is
batched when `method.batch_size is None or method.batch_size > 1 or include_sq`. -/
def get_benchmark_scheduler_options (method : MethodConfig) (include_sq : Bool)
    (logging_level : ℕ) : SchedulerOptions :=
  let trial_type :=
    match method.batch_size with
    | none => TrialType.BATCH_TRIAL
    | some b => if 1 < b ∨ include_sq then TrialType.BATCH_TRIAL else TrialType.TRIAL
  { max_pending_trials := method.max_pending_trials
    init_seconds_between_polls := 0
    min_seconds_before_poll := 0
    trial_type := trial_type
    batch_size := method.batch_size
    run_trials_in_batches := method.run_trials_in_batches
    status_quo_weight := if include_sq then 1 else 0
    logging_level := logging_level }

/-! ### Baseline value from Sobol (`compute_baseline_value_from_sobol`) -/

/-- The assignment on line 496 of `benchmark.py`:
`target_fidelity_and_task = {} if target_fidelity_and_task is None else {}` —
both branches produce the empty dict. -/
def sobolDummyTarget (target_fidelity_and_task : Option Params) : Params :=
  match target_fidelity_and_task with
  | none => []
  | some _ => []

/-- The fields of the dummy `BenchmarkProblem` built by
`compute_baseline_value_from_sobol` that vary with its inputs. -/
structure SobolDummyProblem where
  num_trials : ℕ
  target_fidelity_and_task : Params
  higher_is_better : Bool
deriving DecidableEq, Repr

/-- Definition of `compute_baseline_value_from_sobol` from `benchmark.py`.
`replicationLastValue p i` models `benchmark_replication(problem=p, method=...,
seed=i).optimization_trace[-1]`; the returned value is the mean over
`n_repeats` seeds.  The Sobol generation strategy, search space, optimization
config and test function are fixed collaborators and are left implicit in
`replicationLastValue`. -/
def compute_baseline_value_from_sobol
    (replicationLastValue : SobolDummyProblem → ℕ → ℚ)
    (higher_is_better : Bool)
    (target_fidelity_and_task : Option Params)
    (n_repeats : ℕ) : ℚ :=
  let dummy_problem : SobolDummyProblem :=
    { num_trials := 5
      target_fidelity_and_task := sobolDummyTarget target_fidelity_and_task
      higher_is_better := higher_is_better }
  (∑ i ∈ Finset.range n_repeats, replicationLastValue dummy_problem i) / n_repeats

/-! ### Oracle evaluator (`get_oracle_experiment_from_params`) -/

/-- Python's `logging.WARNING`. -/
def WARNING_LEVEL : ℕ := 30

/-- Python's `logging.INFO`, the `DEFAULT_LOG_LEVEL` of `ax.utils.common.logger`. -/
def DEFAULT_LOG_LEVEL : ℕ := 20

/-- One trial of the disposable oracle experiment, as left by the body of the
loop in `get_oracle_experiment_from_params`: attached with the merged
parameterizations and the given arm names, run by the zero-noise runner
(`run_noise_std` records the `noise_std` of the runner that ran it), and
marked completed. -/
structure OracleTrial where
  parameterizations : List Params
  arm_names : List String
  status : TrialStatus
  run_noise_std : ℚ
deriving DecidableEq, Repr

/-- The disposable experiment built by `get_oracle_experiment_from_params`. -/
structure OracleExperiment where
  trials : List OracleTrial
deriving DecidableEq, Repr

/-- The trial attached and run for one entry `dict_of_params` of the input:
each parameterization is `{**parameters, **problem.target_fidelity_and_task}`
(the problem's target fidelity/task parameters override the arm's). -/
def mkOracleTrial (target : Params) (noise_std : ℚ)
    (dict_of_params : List (String × Params)) : OracleTrial :=
  { parameterizations := dict_of_params.map (fun p => dictMerge p.2 target)
    arm_names := dict_of_params.map Prod.fst
    status := TrialStatus.COMPLETED
    run_noise_std := noise_std }

/-- The `for trial_index, dict_of_params in dict_of_dict_of_params.items()`
loop: attach/run/complete each trial in order; a trial with an empty mapping
raises `ValueError`, which aborts the loop with the experiment as built so
far (the source indexes `experiment.trials` by the mapping key, which every
caller supplies as consecutive integers from zero). -/
def attachOracleTrials (target : Params) (noise_std : ℚ) :
    OracleExperiment → List (ℕ × List (String × Params)) →
    OracleExperiment × Option String
  | e, [] => (e, none)
  | e, (_, dict_of_params) :: rest =>
    if dict_of_params.length = 0 then
      (e, some "Cannot create a trial with no arms.")
    else
      attachOracleTrials target noise_std
        { trials := e.trials ++ [mkOracleTrial target noise_std dict_of_params] }
        rest

/-- The outcome of `get_oracle_experiment_from_params`: the experiment as
built (partially built when the call raised), the raised error if any, and
the level of the `ax.core.experiment` logger when the call returns or the
exception propagates out of it.  The logger level is explicit state because
the source mutates a global logger. -/
structure OracleCallResult where
  experiment : OracleExperiment
  error : Option String
  finalLogLevel : ℕ
deriving DecidableEq, Repr

/-- Definition of `get_oracle_experiment_from_params` from `benchmark.py`.  The source sets
the `ax.core.experiment` logger to `WARNING`, runs the attach/run/complete
loop, and only after the loop restores the saved level with a plain
`setLevel` call (no `try/finally`), so when the loop raises, the level is
still `WARNING` as the exception propagates.  The runner is
`BenchmarkRunner(test_function=problem.test_function, noise_std=0.0)`. -/
def get_oracle_experiment_from_params (target : Params)
    (dict_of_dict_of_params : List (ℕ × List (String × Params)))
    (initialLogLevel : ℕ) : OracleCallResult :=
  match attachOracleTrials target 0 ⟨[]⟩ dict_of_dict_of_params with
  | (e, some msg) =>
    { experiment := e, error := some msg, finalLogLevel := WARNING_LEVEL }
  | (e, none) =>
    { experiment := e, error := none, finalLogLevel := initialLogLevel }

/-! ### The replication loop (`benchmark_replication`) -/

/-- A snapshot of one entry of `experiment.trials` as observed by the loop
body. -/
structure TrialSnapshot where
  index : ℕ
  status : TrialStatus
  arms : List Arm
deriving DecidableEq, Repr

/-- Lines 377-385: the indices of trials currently `COMPLETED` or
`EARLY_STOPPED`. -/
def currentlyCompletedTrials (trials : List TrialSnapshot) : Finset ℕ :=
  ((trials.filter (fun t => t.status.isCompletedOrEarlyStopped)).map
    TrialSnapshot.index).toFinset

/-- One progress step yielded by `scheduler.run_trials_and_yield_results`,
together with the external observations the loop body makes during it: the
experiment's trials, what `method.get_best_parameters` would return if asked,
the backend simulator's time if one is attached, and the elapsed wall-clock
hours `(monotonic() - start) / 3600` at the timeout check. -/
structure LoopStep where
  trials : List TrialSnapshot
  bestParams : List Params
  simulatorTime : ℚ
  elapsedHours : ℚ

/-- The configuration of one replication: the problem/method fields read by
the loop.  `totalRuntime i` models `get_total_runtime` for trial index `i`
(its other arguments — the runner's step-runtime function and the test
function's number of steps — are fixed for the whole replication);
`hasSimulatedBackend` is whether `runner.simulated_backend_runner` is not
`None`. -/
structure ReplicationConfig where
  is_moo : Bool
  target_fidelity_and_task : Params
  report_inference_value_as_trace : Bool
  baseline_value : ℚ
  optimal_value : ℚ
  timeout_hours : Option ℚ
  hasSimulatedBackend : Bool
  totalRuntime : ℕ → ℚ

/-- The mutable state of the loop in `benchmark_replication`.  `newlySetsLog`
is a ghost field, not present in the source: it records the per-iteration
"newly completed" sets so that history properties can be stated; the source
fields are unaffected by it.  `warnings` models the driver logger's warning
output. -/
structure LoopState where
  previouslyCompleted : Finset ℕ
  cost : ℚ
  costTrace : List ℚ
  bestParamsList : List Params
  evaluatedArmsList : List (List Arm)
  warnings : List String
  newlySetsLog : List (Finset ℕ)
deriving DecidableEq

/-- Line 357-358: `previously_completed_trial_idcs = set()`, `cost = 0.0`,
and the empty traces of lines 347-349. -/
def initialLoopState : LoopState :=
  { previouslyCompleted := ∅
    cost := 0
    costTrace := []
    bestParamsList := []
    evaluatedArmsList := []
    warnings := []
    newlySetsLog := [] }

/-- Lines 401-406: the set of arms across the newly completed trials
(`{arm for i in newly_completed_trials for arm in experiment.trials[i].arms}`);
a Python set, modelled as the deduplicated list in snapshot order. -/
def armsOfTrials (trials : List TrialSnapshot) (idcs : Finset ℕ) : List Arm :=
  ((trials.filter (fun t => t.index ∈ idcs)).flatMap TrialSnapshot.arms).dedup

/-- The guard of the inference-trace branch: `problem.is_moo or is_mf_or_mt`
(multi-objective, or non-empty target fidelity/task parameters;
`is_mf_or_mt = len(problem.target_fidelity_and_task) > 0`, line 351). -/
def inferenceUnsupported (cfg : ReplicationConfig) : Prop :=
  cfg.is_moo = true ∨ 0 < cfg.target_fidelity_and_task.length

instance (cfg : ReplicationConfig) : Decidable (inferenceUnsupported cfg) := by
  unfold inferenceUnsupported
  infer_instance

/-- The completed/early-stopped index set a progress step exposes. -/
def stepCompleted (s : LoopStep) : Finset ℕ :=
  currentlyCompletedTrials s.trials

/-- The absorbing-status assumption between two consecutive snapshots of
`experiment.trials`: a trial seen completed/early-stopped stays so (same
index, still a terminal completed status) in the later snapshot. -/
def absorbing (t1 t2 : List TrialSnapshot) : Prop :=
  ∀ t ∈ t1, t.status.isCompletedOrEarlyStopped = true →
    ∃ t' ∈ t2, t'.index = t.index ∧ t'.status.isCompletedOrEarlyStopped = true

instance (t1 t2 : List TrialSnapshot) : Decidable (absorbing t1 t2) := by
  unfold absorbing
  infer_instance

/-- The trial-type condition exactly as the claim states it: batched iff the
method's batch size is greater than 1 or the status quo is included. -/
def claimBatchedCondition (batch_size : Option Int) (include_sq : Bool) : Prop :=
  (∃ b : Int, batch_size = some b ∧ 1 < b) ∨ include_sq = true

/-- Lines 392-406: advance the cumulative cost (querying the simulated clock
when one is attached), append it to the cost trace, and append the set of
arms of the newly completed trials to the evaluated-arms list. -/
def advanceCost (cfg : ReplicationConfig) (st : LoopState) (step : LoopStep)
    (newly : Finset ℕ) : LoopState :=
  let cost := _get_cumulative_cost
    (if cfg.hasSimulatedBackend then some step.simulatorTime else none)
    cfg.totalRuntime st.cost newly
  { st with
    cost := cost
    costTrace := st.costTrace ++ [cost]
    evaluatedArmsList := st.evaluatedArmsList ++ [armsOfTrials step.trials newly] }

/-- Lines 408-418: when the problem is neither multi-objective nor
multi-fidelity/multi-task, unpack the method's single best parameterization
— a contract violation (`ValueError` on unpacking) when
`get_best_parameters` does not return exactly one point — and append it. -/
def bookkeepInference (cfg : ReplicationConfig) (st : LoopState)
    (step : LoopStep) : Except String LoopState :=
  if inferenceUnsupported cfg then
    Except.ok st
  else
    match step.bestParams with
    | [best_params] =>
      Except.ok { st with bestParamsList := st.bestParamsList ++ [best_params] }
    | _ => Except.error "not exactly one best point"

/-- Lines 391-418: the bookkeeping performed only when
`newly_completed_trials` is non-empty. -/
def bookkeep (cfg : ReplicationConfig) (st : LoopState) (step : LoopStep)
    (newly : Finset ℕ) : Except String LoopState :=
  if 0 < newly.card then
    bookkeepInference cfg (advanceCost cfg st step newly) step
  else
    Except.ok st

/-- Lines 420-425: when a timeout is configured, recompute
`remaining_hours = timeout_hours - elapsed_hours`; when it is `≤ 0`, log the
warning and break out of the loop (the `Bool` is the break signal). -/
def timeoutCheck (cfg : ReplicationConfig) (st : LoopState) (step : LoopStep) :
    LoopState × Bool :=
  match cfg.timeout_hours with
  | none => (st, false)
  | some timeout =>
    if timeout - step.elapsedHours ≤ 0 then
      ({ st with warnings := st.warnings ++ ["The optimization loop timed out."] },
        true)
    else
      (st, false)

/-- Lines 377-388: `newly_completed_trials`, the difference between the
currently completed set and the previously seen one. -/
def stepNewly (st : LoopState) (step : LoopStep) : Finset ℕ :=
  currentlyCompletedTrials step.trials \ st.previouslyCompleted

/-- Line 389 plus the ghost log: overwrite
`previously_completed_trial_idcs` with the current set, recording the newly
completed set. -/
def recordStep (st : LoopState) (step : LoopStep) : LoopState :=
  { st with
    previouslyCompleted := currentlyCompletedTrials step.trials
    newlySetsLog := st.newlySetsLog ++ [stepNewly st step] }

/-- One iteration of the `for _ in scheduler.run_trials_and_yield_results`
loop: recompute the completed set and its difference with the previous one,
overwrite `previously_completed_trial_idcs`, do the bookkeeping, then check
the timeout. -/
def loopBody (cfg : ReplicationConfig) (st : LoopState) (step : LoopStep) :
    Except String (LoopState × Bool) :=
  match bookkeep cfg (recordStep st step) step (stepNewly st step) with
  | Except.error e => Except.error e
  | Except.ok st2 => Except.ok (timeoutCheck cfg st2 step)

/-- The whole `RUNNING` loop over the steps the scheduler yields: run the
body for each step, stopping early when the body signals a break; the `Bool`
of the result tells whether the loop was exited by the timeout break. -/
def runLoop (cfg : ReplicationConfig) :
    LoopState → List LoopStep → Except String (LoopState × Bool)
  | st, [] => Except.ok (st, false)
  | st, step :: rest =>
    match loopBody cfg st step with
    | Except.error e => Except.error e
    | Except.ok (st1, true) => Except.ok (st1, true)
    | Except.ok (st1, false) => runLoop cfg st1 rest

/-- Extract the trace of an oracle-experiment call: propagate the raised
error if the call raised, else hand the experiment to the external best-point
extractor `BestPointMixin._get_trace`, modelled by `getTrace` (one value per
trial index). -/
def oracleCallTrace (getTrace : OracleExperiment → List ℚ)
    (r : OracleCallResult) : Except String (List ℚ) :=
  match r.error with
  | some e => Except.error e
  | none => Except.ok (getTrace r.experiment)

/-- Python's single-element unpacking `(inference_value,) = trace`: raises
unless the list has exactly one element. -/
def unpackSingle : List ℚ → Except String ℚ
  | [v] => Except.ok v
  | _ => Except.error "not exactly one trace value"

/-- Definition of `_get_oracle_value_of_params` from `benchmark.py`: build a dummy oracle
experiment whose only trial holds the single arm `"0_0" ↦ params`, then
unpack the single value of its trace. -/
def _get_oracle_value_of_params (getTrace : OracleExperiment → List ℚ)
    (target : Params) (params : Params) : Except String ℚ :=
  match oracleCallTrace getTrace
      (get_oracle_experiment_from_params target [(0, [("0_0", params)])]
        DEFAULT_LOG_LEVEL) with
  | Except.error e => Except.error e
  | Except.ok trace => unpackSingle trace

/-- Definition of `_get_oracle_trace_from_arms` from `benchmark.py`: build one oracle
experiment whose trial `i` holds the arms of `evaluated_arms_list[i]`, and
return its full trace. -/
def _get_oracle_trace_from_arms (getTrace : OracleExperiment → List ℚ)
    (target : Params) (evaluated_arms_list : List (List Arm)) :
    Except String (List ℚ) :=
  oracleCallTrace getTrace
    (get_oracle_experiment_from_params target evaluated_arms_list.enum
      DEFAULT_LOG_LEVEL)

/-- The list comprehension on lines 429-434: oracle-evaluate each recorded
best parameterization in order, propagating the first failure. -/
def collectOracleValues (getTrace : OracleExperiment → List ℚ) (target : Params) :
    List Params → Except String (List ℚ)
  | [] => Except.ok []
  | params :: rest =>
    match _get_oracle_value_of_params getTrace target params with
    | Except.error e => Except.error e
    | Except.ok v =>
      match collectOracleValues getTrace target rest with
      | Except.error e => Except.error e
      | Except.ok vs => Except.ok (v :: vs)

/-- The trace fields of `BenchmarkResult` produced by one replication. -/
structure BenchmarkResult where
  oracle_trace : List ℚ
  inference_trace : List ℚ
  optimization_trace : List ℚ
  score_trace : List ℚ
  cost_trace : List ℚ
deriving DecidableEq, Repr

/-- Lines 439-466: select the optimization trace by
`problem.report_inference_value_as_trace`, score it, and assemble the
result record. -/
def mkBenchmarkResult (cfg : ReplicationConfig)
    (inference_trace oracle_trace cost_trace : List ℚ) : BenchmarkResult :=
  { oracle_trace := oracle_trace
    inference_trace := inference_trace
    optimization_trace :=
      if cfg.report_inference_value_as_trace then inference_trace
      else oracle_trace
    score_trace := compute_score_trace
      (if cfg.report_inference_value_as_trace then inference_trace
       else oracle_trace)
      cfg.baseline_value cfg.optimal_value
    cost_trace := cost_trace }

/-- Lines 429-466 of `benchmark_replication`: after the loop, oracle-evaluate
each recorded best parameterization (inference trace), oracle-evaluate the
per-step evaluated-arm sets in one batched call (oracle trace), and assemble
the result; an error on the inference side takes precedence, as it is raised
first in the source. -/
def finalizeReplication (cfg : ReplicationConfig)
    (getTrace : OracleExperiment → List ℚ) (st : LoopState) :
    Except String BenchmarkResult :=
  match collectOracleValues getTrace cfg.target_fidelity_and_task
      st.bestParamsList,
    _get_oracle_trace_from_arms getTrace cfg.target_fidelity_and_task
      st.evaluatedArmsList with
  | Except.error e, _ => Except.error e
  | Except.ok _, Except.error e => Except.error e
  | Except.ok inference_trace, Except.ok oracle_trace =>
    Except.ok (mkBenchmarkResult cfg inference_trace oracle_trace st.costTrace)

/-- Definition of `benchmark_replication` from `benchmark.py`, as a function of the
scheduler's yielded progress steps: run the loop from the initial state, then
finalize.  The second component of the result is the driver logger's warning
output. -/
def benchmark_replication (cfg : ReplicationConfig)
    (getTrace : OracleExperiment → List ℚ) (steps : List LoopStep) :
    Except String (BenchmarkResult × List String) :=
  match runLoop cfg initialLoopState steps with
  | Except.error e => Except.error e
  | Except.ok (st, _) =>
    match finalizeReplication cfg getTrace st with
    | Except.error e => Except.error e
    | Except.ok result => Except.ok (result, st.warnings)

/-- The bookkeeping-length invariant of the loop: the cost trace has one
entry per iteration that saw newly completed trials, the evaluated-arms list
grows in lockstep with it, and the best-parameters list is empty when the
inference trace is unsupported and in lockstep with the cost trace when it is
supported. -/
def StInv (cfg : ReplicationConfig) (st : LoopState) : Prop :=
  st.costTrace.length = st.newlySetsLog.countP (fun s => decide (s ≠ ∅))
  ∧ st.evaluatedArmsList.length = st.costTrace.length
  ∧ (inferenceUnsupported cfg → st.bestParamsList = [])
  ∧ (¬ inferenceUnsupported cfg →
      st.bestParamsList.length = st.costTrace.length)

/-- Every recorded evaluated-arms group is non-empty. -/
def armsInv (st : LoopState) : Prop :=
  ∀ a ∈ st.evaluatedArmsList, a ≠ []

instance (st : LoopState) : Decidable (armsInv st) := by
  unfold armsInv
  infer_instance

/-- The history invariant behind no-double-counting: the logged newly
completed sets are pairwise disjoint, and all of them are inside the
previously-completed set. -/
def logInv (st : LoopState) : Prop :=
  st.newlySetsLog.Pairwise Disjoint
  ∧ ∀ s ∈ st.newlySetsLog, s ⊆ st.previouslyCompleted

/-! ### Helper lemmas: dict merging and the oracle experiment -/

theorem lookupParam_dictInsert_self (d : Params) (kv : String × Value) :
    lookupParam (dictInsert d kv) kv.1 = some kv.2 := by
  induction d with
  | nil => simp [dictInsert, lookupParam]
  | cons p rest ih =>
    by_cases hp : p.1 = kv.1
    · simp [dictInsert, hp, lookupParam]
    · simp [dictInsert, hp, lookupParam, ih]

theorem lookupParam_dictInsert_ne (d : Params) (kv : String × Value) (k : String)
    (hk : k ≠ kv.1) :
    lookupParam (dictInsert d kv) k = lookupParam d k := by
  induction d with
  | nil => simp [dictInsert, lookupParam, Ne.symm hk]
  | cons p rest ih =>
    by_cases hp : p.1 = kv.1
    · have hpk : p.1 ≠ k := by
        rw [hp]
        exact fun hh => hk hh.symm
      simp [dictInsert, hp, lookupParam, Ne.symm hk, hpk]
    · by_cases hpk : p.1 = k
      · simp [dictInsert, lookupParam, hp, hpk, hk]
      · simp [dictInsert, hp, lookupParam, hpk, ih]

theorem lookupParam_eq_none_of_not_mem (d : Params) (k : String)
    (h : k ∉ d.map Prod.fst) :
    lookupParam d k = none := by
  induction d with
  | nil => rfl
  | cons p rest ih =>
    simp only [List.map_cons, List.mem_cons] at h
    push_neg at h
    simp [lookupParam, Ne.symm h.1, ih h.2]

/-- Python's `{**base, **override}`: a key of `override` takes the overriding
value, any other key keeps its `base` value. -/
theorem lookupParam_dictMerge (base override : Params) (k : String)
    (hnd : (override.map Prod.fst).Nodup) :
    lookupParam (dictMerge base override) k
      = (lookupParam override k).orElse (fun _ => lookupParam base k) := by
  induction override generalizing base with
  | nil => simp [dictMerge, lookupParam, Option.orElse]
  | cons kv rest ih =>
    simp only [List.map_cons, List.nodup_cons] at hnd
    have hfold : dictMerge base (kv :: rest) = dictMerge (dictInsert base kv) rest := rfl
    rw [hfold, ih _ hnd.2]
    by_cases hk : k = kv.1
    · have hrest : lookupParam rest kv.1 = none :=
        lookupParam_eq_none_of_not_mem rest kv.1 hnd.1
      have hins : lookupParam (dictInsert base kv) kv.1 = some kv.2 :=
        lookupParam_dictInsert_self base kv
      rw [hk]
      simp [lookupParam, hrest, hins, Option.orElse]
    · have hins : lookupParam (dictInsert base kv) k = lookupParam base k :=
        lookupParam_dictInsert_ne base kv k hk
      simp [lookupParam, Ne.symm hk, hins]

/-- When every entry has at least one arm, the attach loop attaches one trial
per entry, in order, and raises nothing. -/
theorem attachOracleTrials_ok (target : Params) (ns : ℚ)
    (e : OracleExperiment) (l : List (ℕ × List (String × Params)))
    (h : ∀ x ∈ l, x.2 ≠ []) :
    attachOracleTrials target ns e l
      = ({ trials := e.trials ++ l.map (fun x => mkOracleTrial target ns x.2) },
          none) := by
  induction l generalizing e with
  | nil => simp [attachOracleTrials]
  | cons x rest ih =>
    have hx : x.2 ≠ [] := h x (List.mem_cons_self x rest)
    have hlen : ¬ x.2.length = 0 := by
      simpa [List.length_eq_zero] using hx
    simp only [attachOracleTrials, hlen, if_false]
    rw [ih _ (fun y hy => h y (List.mem_cons_of_mem x hy))]
    simp

/-- When the first entry with no arms is reached, the loop raises with only
the earlier trials attached. -/
theorem attachOracleTrials_err (target : Params) (ns : ℚ)
    (e : OracleExperiment) (pre post : List (ℕ × List (String × Params)))
    (idx : ℕ) (h : ∀ x ∈ pre, x.2 ≠ []) :
    attachOracleTrials target ns e (pre ++ (idx, []) :: post)
      = ({ trials := e.trials ++ pre.map (fun x => mkOracleTrial target ns x.2) },
          some "Cannot create a trial with no arms.") := by
  induction pre generalizing e with
  | nil => simp [attachOracleTrials]
  | cons x rest ih =>
    have hx : x.2 ≠ [] := h x (List.mem_cons_self x rest)
    have hlen : ¬ x.2.length = 0 := by
      simpa [List.length_eq_zero] using hx
    simp only [List.cons_append, attachOracleTrials, hlen, if_false, List.append_eq]
    rw [ih _ (fun y hy => h y (List.mem_cons_of_mem x hy))]
    simp

/-- C7: when some requested trial's arm-name-to-parameterization mapping is
empty (and all earlier ones are non-empty), `get_oracle_experiment_from_params`
fails with an invalid-input error, having attached only the earlier trials;
when all mappings are non-empty, one trial is attached per entry, run with
the zero-noise runner and marked completed, with parameterizations equal to
the arm's parameters merged with — and overridden by — the problem's target
fidelity/task parameters (`dictMerge`, whose override semantics the last
conjunct states). -/
theorem oracle_experiment_spec (target : Params) (lvl : ℕ)
    (input pre post : List (ℕ × List (String × Params))) (idx : ℕ) :
    ((∀ x ∈ pre, x.2 ≠ []) →
      (get_oracle_experiment_from_params target
          (pre ++ (idx, []) :: post) lvl).error.isSome = true
      ∧ (get_oracle_experiment_from_params target
          (pre ++ (idx, []) :: post) lvl).experiment.trials.length = pre.length)
    ∧ ((∀ x ∈ input, x.2 ≠ []) →
      (get_oracle_experiment_from_params target input lvl).error = none
      ∧ (get_oracle_experiment_from_params target input lvl).experiment.trials
          = input.map (fun x => mkOracleTrial target 0 x.2)
      ∧ ∀ t ∈ (get_oracle_experiment_from_params target input lvl).experiment.trials,
          t.status = TrialStatus.COMPLETED ∧ t.run_noise_std = 0)
    ∧ ((target.map Prod.fst).Nodup → ∀ (params : Params) (k : String),
        lookupParam (dictMerge params target) k
          = (lookupParam target k).orElse (fun _ => lookupParam params k)) := by
  refine ⟨?_, ?_, ?_⟩
  · intro h
    unfold get_oracle_experiment_from_params
    rw [attachOracleTrials_err target 0 ⟨[]⟩ pre post idx h]
    simp
  · intro h
    unfold get_oracle_experiment_from_params
    rw [attachOracleTrials_ok target 0 ⟨[]⟩ input h]
    refine ⟨rfl, by simp, ?_⟩
    intro t ht
    simp only [List.nil_append, List.mem_map] at ht
    obtain ⟨x, _, rfl⟩ := ht
    exact ⟨rfl, rfl⟩
  · intro hnd params k
    exact lookupParam_dictMerge params target k hnd

/-- Witness for C7: one one-arm trial attaches cleanly at noise 0. -/
theorem oracle_experiment_spec_witness :
    (get_oracle_experiment_from_params [("f", 1)]
        [(0, [("0_0", [("x", 2)])])] 20).error = none
    ∧ (get_oracle_experiment_from_params [("f", 1)]
        [(0, [("0_0", [("x", 2)])])] 20).experiment.trials
        = [(0, [("0_0", [("x", 2)])])].map
            (fun x => mkOracleTrial [("f", 1)] 0 x.2)
    ∧ ∀ t ∈ (get_oracle_experiment_from_params [("f", 1)]
        [(0, [("0_0", [("x", 2)])])] 20).experiment.trials,
        t.status = TrialStatus.COMPLETED ∧ t.run_noise_std = 0 :=
  (oracle_experiment_spec [("f", 1)] 20 [(0, [("0_0", [("x", 2)])])]
      [(0, [("0_0", [("x", 2)])])] [] 1).2.1
    (by
      intro x hx
      rw [List.mem_singleton] at hx
      subst hx
      simp)

/-- C9 counterexample: calling `get_oracle_experiment_from_params` with a
zero-arm trial raises, and on that error exit the `ax.core.experiment` logger
is left at `WARNING` (30), not restored to its prior level `INFO` (20): the
restoring `setLevel` sits after the loop with no `try/finally`. -/
theorem oracle_logger_not_restored_counterexample :
    (get_oracle_experiment_from_params [] [(0, [])]
        DEFAULT_LOG_LEVEL).error.isSome = true
    ∧ ¬ (get_oracle_experiment_from_params [] [(0, [])]
        DEFAULT_LOG_LEVEL).finalLogLevel = DEFAULT_LOG_LEVEL := by
  constructor
  · rfl
  · intro h
    simp [get_oracle_experiment_from_params, attachOracleTrials,
      WARNING_LEVEL, DEFAULT_LOG_LEVEL] at h

/-- C9 amended: the logger level is restored to the prior level on the
successful exit path; on the error exit (taken when a trial has zero arms)
it remains at `WARNING`. -/
theorem oracle_logger_level_restoration (target : Params)
    (input : List (ℕ × List (String × Params))) (lvl : ℕ) :
    ((get_oracle_experiment_from_params target input lvl).error = none →
      (get_oracle_experiment_from_params target input lvl).finalLogLevel = lvl)
    ∧ ((get_oracle_experiment_from_params target input lvl).error.isSome = true →
      (get_oracle_experiment_from_params target input lvl).finalLogLevel
        = WARNING_LEVEL) := by
  unfold get_oracle_experiment_from_params
  rcases h : attachOracleTrials target 0 ⟨[]⟩ input with ⟨e, err⟩
  cases err <;> simp

/-- Witness for C9 amended: an empty request succeeds and restores the
level. -/
theorem oracle_logger_level_restoration_witness :
    (get_oracle_experiment_from_params [] [] 20).finalLogLevel = 20 :=
  (oracle_logger_level_restoration [] [] 20).1 rfl

/-- C5: `compute_score_trace` returns a same-length trace whose element `i`
is `100 * (trace[i] - baseline) / (optimal - baseline)`; the two concrete
examples of the spec hold; a value equal to the baseline scores 0, one equal
to the optimal scores 100, values beyond the optimal score above 100 and
values worse than the baseline score below 0 (in both the maximizing and the
minimizing orientation). -/
theorem compute_score_trace_spec (trace : List ℚ) (b o : ℚ) (h : o ≠ b) :
    (compute_score_trace trace b o).length = trace.length
    ∧ (∀ (i : ℕ) (hi : i < trace.length),
        (compute_score_trace trace b o).get
            ⟨i, by simpa [compute_score_trace] using hi⟩
          = 100 * (trace.get ⟨i, hi⟩ - b) / (o - b))
    ∧ compute_score_trace [0, 50, 100, 150] 0 100 = [0, 50, 100, 150]
    ∧ compute_score_trace [100, 50, 0] 100 0 = [0, 50, 100]
    ∧ (∀ v : ℚ, v = b → compute_score_trace [v] b o = [0])
    ∧ (∀ v : ℚ, v = o → compute_score_trace [v] b o = [100])
    ∧ (∀ v : ℚ, b < o → o < v → 100 < (compute_score_trace [v] b o).headI)
    ∧ (∀ v : ℚ, o < b → v < o → 100 < (compute_score_trace [v] b o).headI)
    ∧ (∀ v : ℚ, b < o → v < b → (compute_score_trace [v] b o).headI < 0)
    ∧ (∀ v : ℚ, o < b → b < v → (compute_score_trace [v] b o).headI < 0) := by
  refine ⟨?_, ?_, ?_, ?_, ?_, ?_, ?_, ?_, ?_, ?_⟩
  · simp [compute_score_trace]
  · intro i hi
    simp [compute_score_trace, List.get_eq_getElem]
  · norm_num [compute_score_trace]
  · norm_num [compute_score_trace]
  · intro v hv
    subst hv
    simp [compute_score_trace]
  · intro v hv
    subst hv
    simp only [compute_score_trace, List.map_cons, List.map_nil]
    rw [mul_div_assoc, div_self (sub_ne_zero.mpr h), mul_one]
  · intro v hbo hov
    simp only [compute_score_trace, List.map_cons, List.map_nil, List.headI]
    rw [lt_div_iff₀ (by linarith : (0 : ℚ) < o - b)]
    linarith
  · intro v hob hvo
    simp only [compute_score_trace, List.map_cons, List.map_nil, List.headI]
    rw [lt_div_iff_of_neg (by linarith : o - b < (0 : ℚ))]
    linarith
  · intro v hbo hvb
    simp only [compute_score_trace, List.map_cons, List.map_nil, List.headI]
    exact div_neg_of_neg_of_pos (by linarith) (by linarith)
  · intro v hob hbv
    simp only [compute_score_trace, List.map_cons, List.map_nil, List.headI]
    exact div_neg_of_pos_of_neg (by linarith) (by linarith)

/-- Witness for C5 at `baseline = 0`, `optimal = 100`. -/
theorem compute_score_trace_spec_witness :
    compute_score_trace [0, 50, 100, 150] 0 100 = [0, 50, 100, 150] :=
  (compute_score_trace_spec [0, 50, 100, 150] 0 100 (by norm_num)).2.2.1

/-- C6: with a simulated backend attached, `_get_cumulative_cost` returns the
simulator's current time, independently of the previous cost, of the runtime
function and of which trial indices are passed; without one, it returns the
previous cost plus the sum of the newly completed trials' total runtimes. -/
theorem cumulative_cost_spec :
    (∀ (t : ℚ) (rt rt' : ℕ → ℚ) (pc pc' : ℚ) (s s' : Finset ℕ),
      _get_cumulative_cost (some t) rt pc s = t
      ∧ _get_cumulative_cost (some t) rt pc s
          = _get_cumulative_cost (some t) rt' pc' s')
    ∧ (∀ (rt : ℕ → ℚ) (pc : ℚ) (s : Finset ℕ),
      _get_cumulative_cost none rt pc s = pc + ∑ i ∈ s, rt i) :=
  ⟨fun _ _ _ _ _ _ _ => ⟨rfl, rfl⟩, fun _ _ _ => rfl⟩

/-- C8 counterexample: with `batch_size = None` and no status quo, the source
chooses the batched trial type even though the claim's condition
(batch size greater than 1, or status quo included) is false. -/
theorem scheduler_options_batch_counterexample :
    (get_benchmark_scheduler_options
        { batch_size := none
          max_pending_trials := 1
          run_trials_in_batches := false
          timeout_hours := none }
        false DEFAULT_LOG_LEVEL).trial_type = TrialType.BATCH_TRIAL
    ∧ ¬ claimBatchedCondition none false := by
  refine ⟨rfl, ?_⟩
  rintro (⟨b, hb, _⟩ | hsq)
  · exact Option.noConfusion hb
  · exact Bool.noConfusion hsq

/-- C8 amended: the scheduler options use the batched trial type if and only
if the method's batch size is `None`, is greater than 1, or the status quo is
included; otherwise the sequential trial type. -/
theorem scheduler_options_trial_type (method : MethodConfig) (include_sq : Bool)
    (lvl : ℕ) :
    (get_benchmark_scheduler_options method include_sq lvl).trial_type
        = TrialType.BATCH_TRIAL
    ↔ (method.batch_size = none ∨ claimBatchedCondition method.batch_size include_sq) := by
  unfold get_benchmark_scheduler_options claimBatchedCondition
  cases hbs : method.batch_size with
  | none => simp
  | some b =>
    by_cases hb : (1 : Int) < b
    · simp [hb]
    · by_cases hsq : include_sq
      · simp [hb, hsq]
      · simp [hb, hsq]

/-- C10: `compute_baseline_value_from_sobol` discards its
`target_fidelity_and_task` argument — the dummy problem's target mapping is
empty whether the caller passes `None` or any mapping, and the returned
baseline value is the same as if `None` had been passed. -/
theorem sobol_baseline_ignores_target
    (replicationLastValue : SobolDummyProblem → ℕ → ℚ)
    (higher_is_better : Bool) (n_repeats : ℕ)
    (t : Params) (topt : Option Params) :
    sobolDummyTarget topt = []
    ∧ compute_baseline_value_from_sobol replicationLastValue higher_is_better
        (some t) n_repeats
      = compute_baseline_value_from_sobol replicationLastValue higher_is_better
        none n_repeats := by
  constructor
  · cases topt <;> rfl
  · rfl

/-! ### Helper lemmas: the loop body -/

theorem bookkeep_fields (cfg : ReplicationConfig) (st : LoopState)
    (step : LoopStep) (newly : Finset ℕ) (st' : LoopState)
    (h : bookkeep cfg st step newly = Except.ok st') :
    st'.previouslyCompleted = st.previouslyCompleted
    ∧ st'.newlySetsLog = st.newlySetsLog
    ∧ st'.warnings = st.warnings
    ∧ st'.costTrace.length = st.costTrace.length + (if newly = ∅ then 0 else 1)
    ∧ st'.evaluatedArmsList = st.evaluatedArmsList
        ++ (if newly = ∅ then [] else [armsOfTrials step.trials newly])
    ∧ (inferenceUnsupported cfg → st'.bestParamsList = st.bestParamsList)
    ∧ (¬ inferenceUnsupported cfg →
        st'.bestParamsList.length
          = st.bestParamsList.length + (if newly = ∅ then 0 else 1)) := by
  by_cases hne : newly = ∅
  · have hcard : ¬ 0 < newly.card := by simp [hne]
    unfold bookkeep at h
    rw [if_neg hcard] at h
    cases h
    simp [hne]
  · have hcard : 0 < newly.card :=
      Finset.card_pos.mpr (Finset.nonempty_iff_ne_empty.mpr hne)
    unfold bookkeep at h
    rw [if_pos hcard] at h
    unfold bookkeepInference at h
    by_cases hu : inferenceUnsupported cfg
    · rw [if_pos hu] at h
      cases h
      refine ⟨rfl, rfl, rfl, ?_, ?_, fun _ => rfl, ?_⟩
      · simp [advanceCost, hne]
      · simp [advanceCost, hne]
      · intro hnu
        exact absurd hu hnu
    · rw [if_neg hu] at h
      rcases hbp : step.bestParams with _ | ⟨bp, tl⟩
      · rw [hbp] at h
        simp at h
      · rcases tl with _ | ⟨bp2, tl2⟩
        · rw [hbp] at h
          cases h
          refine ⟨rfl, rfl, rfl, ?_, ?_, ?_, ?_⟩
          · simp [advanceCost, hne]
          · simp [advanceCost, hne]
          · intro hcontra
            exact absurd hcontra hu
          · intro _
            simp [advanceCost, hne]
        · rw [hbp] at h
          simp at h

theorem timeoutCheck_fields (cfg : ReplicationConfig) (st : LoopState)
    (step : LoopStep) :
    (timeoutCheck cfg st step).1.previouslyCompleted = st.previouslyCompleted
    ∧ (timeoutCheck cfg st step).1.newlySetsLog = st.newlySetsLog
    ∧ (timeoutCheck cfg st step).1.cost = st.cost
    ∧ (timeoutCheck cfg st step).1.costTrace = st.costTrace
    ∧ (timeoutCheck cfg st step).1.bestParamsList = st.bestParamsList
    ∧ (timeoutCheck cfg st step).1.evaluatedArmsList = st.evaluatedArmsList := by
  unfold timeoutCheck
  rcases cfg.timeout_hours with _ | T
  · simp
  · by_cases hto : T - step.elapsedHours ≤ 0
    · simp [hto]
    · simp [hto]

theorem loopBody_fields (cfg : ReplicationConfig) (st : LoopState)
    (step : LoopStep) (st' : LoopState) (brk : Bool)
    (h : loopBody cfg st step = Except.ok (st', brk)) :
    st'.previouslyCompleted = stepCompleted step
    ∧ st'.newlySetsLog
        = st.newlySetsLog ++ [stepCompleted step \ st.previouslyCompleted]
    ∧ st'.costTrace.length = st.costTrace.length
        + (if stepCompleted step \ st.previouslyCompleted = ∅ then 0 else 1)
    ∧ st'.evaluatedArmsList = st.evaluatedArmsList
        ++ (if stepCompleted step \ st.previouslyCompleted = ∅ then []
            else [armsOfTrials step.trials
                    (stepCompleted step \ st.previouslyCompleted)])
    ∧ (inferenceUnsupported cfg → st'.bestParamsList = st.bestParamsList)
    ∧ (¬ inferenceUnsupported cfg →
        st'.bestParamsList.length = st.bestParamsList.length
          + (if stepCompleted step \ st.previouslyCompleted = ∅ then 0 else 1)) := by
  unfold loopBody at h
  rcases hbk : bookkeep cfg (recordStep st step) step (stepNewly st step)
    with e | st2
  · rw [hbk] at h
    simp at h
  · rw [hbk] at h
    have hpair : timeoutCheck cfg st2 step = (st', brk) := by
      injection h
    obtain ⟨hb1, hb2, hb3, hb4, hb5, hb6, hb7⟩ :=
      bookkeep_fields _ _ _ _ _ hbk
    obtain ⟨ht1, ht2, _, ht4, ht5, ht6⟩ := timeoutCheck_fields cfg st2 step
    rw [hpair] at ht1 ht2 ht4 ht5 ht6
    have hrec1 : (recordStep st step).previouslyCompleted = stepCompleted step := rfl
    have hrec2 : (recordStep st step).newlySetsLog
        = st.newlySetsLog ++ [stepCompleted step \ st.previouslyCompleted] := rfl
    have hrec3 : (recordStep st step).costTrace = st.costTrace := rfl
    have hrec4 : (recordStep st step).evaluatedArmsList = st.evaluatedArmsList := rfl
    have hrec5 : (recordStep st step).bestParamsList = st.bestParamsList := rfl
    have hnewly : stepNewly st step = stepCompleted step \ st.previouslyCompleted := rfl
    refine ⟨?_, ?_, ?_, ?_, ?_, ?_⟩
    · rw [ht1, hb1, hrec1]
    · rw [ht2, hb2, hrec2]
    · rw [ht4, hb4, hrec3, hnewly]
    · rw [ht6, hb5, hrec4, hnewly]
    · intro hu
      rw [ht5, hb6 hu, hrec5]
    · intro hnu
      rw [ht5, hb7 hnu, hrec5, hnewly]

theorem runLoop_nil (cfg : ReplicationConfig) (st : LoopState) :
    runLoop cfg st [] = Except.ok (st, false) := rfl

theorem runLoop_cons_continue (cfg : ReplicationConfig) (st st1 : LoopState)
    (step : LoopStep) (rest : List LoopStep)
    (h : loopBody cfg st step = Except.ok (st1, false)) :
    runLoop cfg st (step :: rest) = runLoop cfg st1 rest := by
  simp only [runLoop, h]

theorem runLoop_cons_break (cfg : ReplicationConfig) (st st1 : LoopState)
    (step : LoopStep) (rest : List LoopStep)
    (h : loopBody cfg st step = Except.ok (st1, true)) :
    runLoop cfg st (step :: rest) = Except.ok (st1, true) := by
  simp only [runLoop, h]

theorem runLoop_append (cfg : ReplicationConfig) (l1 l2 : List LoopStep) :
    ∀ (st st1 : LoopState), runLoop cfg st l1 = Except.ok (st1, false) →
      runLoop cfg st (l1 ++ l2) = runLoop cfg st1 l2 := by
  induction l1 with
  | nil =>
    intro st st1 h
    rw [runLoop_nil] at h
    injection h with h'
    injection h' with h1 h2
    subst h1
    rfl
  | cons s rest ih =>
    intro st st1 h
    rcases hlb : loopBody cfg st s with e | ⟨st2, brk2⟩
    · rw [List.cons_append]
      unfold runLoop at h ⊢
      rw [hlb] at h ⊢
      simp at h
    · cases brk2
      · rw [runLoop_cons_continue cfg st st2 s rest hlb] at h
        rw [List.cons_append, runLoop_cons_continue cfg st st2 s (rest ++ l2) hlb]
        exact ih st2 st1 h
      · rw [runLoop_cons_break cfg st st2 s rest hlb] at h
        injection h with h'
        injection h' with h1 h2
        simp at h2

/-- Preservation of a state predicate `P` along the loop, for steps
satisfying a per-step condition `Pre`. -/
theorem runLoop_preserves (cfg : ReplicationConfig) (P : LoopState → Prop)
    (Pre : LoopStep → Prop)
    (hstep : ∀ st step st' brk, P st → Pre step →
      loopBody cfg st step = Except.ok (st', brk) → P st') :
    ∀ (steps : List LoopStep) (st st' : LoopState) (brk : Bool),
      (∀ s ∈ steps, Pre s) → P st →
      runLoop cfg st steps = Except.ok (st', brk) → P st' := by
  intro steps
  induction steps with
  | nil =>
    intro st st' brk _ hp hrun
    rw [runLoop_nil] at hrun
    injection hrun with h'
    injection h' with h1 h2
    subst h1
    exact hp
  | cons s rest ih =>
    intro st st' brk hpre hp hrun
    rcases hlb : loopBody cfg st s with e | ⟨st1, brk1⟩
    · unfold runLoop at hrun
      rw [hlb] at hrun
      simp at hrun
    · have hp1 : P st1 :=
        hstep st s st1 brk1 hp (hpre s (List.mem_cons_self s rest)) hlb
      cases brk1
      · rw [runLoop_cons_continue cfg st st1 s rest hlb] at hrun
        exact ih st1 st' brk (fun x hx => hpre x (List.mem_cons_of_mem s hx))
          hp1 hrun
      · rw [runLoop_cons_break cfg st st1 s rest hlb] at hrun
        injection hrun with h'
        injection h' with h1 h2
        subst h1
        exact hp1

theorem loopBody_StInv (cfg : ReplicationConfig) (st : LoopState)
    (step : LoopStep) (st' : LoopState) (brk : Bool)
    (hP : StInv cfg st) (h : loopBody cfg st step = Except.ok (st', brk)) :
    StInv cfg st' := by
  obtain ⟨h1, h2, h3, h4, h5, h6⟩ := loopBody_fields cfg st step st' brk h
  obtain ⟨p1, p2, p3, p4⟩ := hP
  refine ⟨?_, ?_, ?_, ?_⟩
  · rw [h3, h2, p1, List.countP_append]
    by_cases hne : stepCompleted step \ st.previouslyCompleted = ∅
    · simp [hne]
    · simp [hne]
  · rw [h4, h3]
    by_cases hne : stepCompleted step \ st.previouslyCompleted = ∅
    · simp [hne, p2]
    · simp [hne, p2]
  · intro hu
    rw [h5 hu]
    exact p3 hu
  · intro hnu
    rw [h6 hnu, h3, p4 hnu]

theorem armsOfTrials_ne_nil (trials : List TrialSnapshot) (idcs : Finset ℕ)
    (hsub : idcs ⊆ currentlyCompletedTrials trials) (hne : idcs ≠ ∅)
    (harms : ∀ t ∈ trials, t.arms ≠ []) :
    armsOfTrials trials idcs ≠ [] := by
  obtain ⟨i, hi⟩ := Finset.nonempty_iff_ne_empty.mpr hne
  have hic := hsub hi
  unfold currentlyCompletedTrials at hic
  rw [List.mem_toFinset, List.mem_map] at hic
  obtain ⟨t, htf, hti⟩ := hic
  rw [List.mem_filter] at htf
  obtain ⟨htmem, hstat⟩ := htf
  have htfil : t ∈ trials.filter (fun t => t.index ∈ idcs) := by
    rw [List.mem_filter]
    refine ⟨htmem, ?_⟩
    simp only [decide_eq_true_eq]
    rw [hti]
    exact hi
  obtain ⟨a, ha⟩ := List.exists_mem_of_ne_nil t.arms (harms t htmem)
  have hmem : a ∈ armsOfTrials trials idcs := by
    unfold armsOfTrials
    rw [List.mem_dedup, List.mem_flatMap]
    exact ⟨t, htfil, ha⟩
  exact List.ne_nil_of_mem hmem

theorem loopBody_armsInv (cfg : ReplicationConfig) (st : LoopState)
    (step : LoopStep) (st' : LoopState) (brk : Bool)
    (hA : armsInv st) (hstep : ∀ t ∈ step.trials, t.arms ≠ [])
    (h : loopBody cfg st step = Except.ok (st', brk)) :
    armsInv st' := by
  obtain ⟨_, _, _, h4, _, _⟩ := loopBody_fields cfg st step st' brk h
  intro a ha
  rw [h4, List.mem_append] at ha
  rcases ha with hold | hnew
  · exact hA a hold
  · by_cases hne : stepCompleted step \ st.previouslyCompleted = ∅
    · rw [if_pos hne] at hnew
      cases hnew
    · rw [if_neg hne] at hnew
      rw [List.mem_singleton] at hnew
      subst hnew
      exact armsOfTrials_ne_nil step.trials _ Finset.sdiff_subset hne hstep

theorem absorbing_subset (t1 t2 : List TrialSnapshot) (h : absorbing t1 t2) :
    currentlyCompletedTrials t1 ⊆ currentlyCompletedTrials t2 := by
  intro i hi
  unfold currentlyCompletedTrials at hi ⊢
  rw [List.mem_toFinset, List.mem_map] at hi ⊢
  obtain ⟨t, htf, hti⟩ := hi
  rw [List.mem_filter] at htf
  obtain ⟨htmem, hstat⟩ := htf
  obtain ⟨t', ht'mem, hidx, hstat'⟩ := h t htmem hstat
  refine ⟨t', ?_, by rw [hidx]; exact hti⟩
  rw [List.mem_filter]
  exact ⟨ht'mem, by simp [hstat']⟩

theorem loopBody_logInv (cfg : ReplicationConfig) (st : LoopState)
    (step : LoopStep) (st' : LoopState) (brk : Bool)
    (hsub : st.previouslyCompleted ⊆ stepCompleted step)
    (hL : logInv st) (h : loopBody cfg st step = Except.ok (st', brk)) :
    logInv st' := by
  obtain ⟨h1, h2, _, _, _, _⟩ := loopBody_fields cfg st step st' brk h
  constructor
  · rw [h2, List.pairwise_append]
    refine ⟨hL.1, List.pairwise_singleton _ _, ?_⟩
    intro a hamem b hbmem
    rw [List.mem_singleton] at hbmem
    subst hbmem
    rw [Finset.disjoint_left]
    intro x hxa hxb
    rw [Finset.mem_sdiff] at hxb
    exact hxb.2 (hL.2 a hamem hxa)
  · rw [h2, h1]
    intro s hs
    rw [List.mem_append] at hs
    rcases hs with hold | hnew
    · exact (hL.2 s hold).trans hsub
    · rw [List.mem_singleton] at hnew
      subst hnew
      exact Finset.sdiff_subset

theorem runLoop_logInv (cfg : ReplicationConfig) :
    ∀ (steps : List LoopStep) (st st' : LoopState) (brk : Bool),
      logInv st →
      List.Chain (· ⊆ ·) st.previouslyCompleted (steps.map stepCompleted) →
      runLoop cfg st steps = Except.ok (st', brk) → logInv st' := by
  intro steps
  induction steps with
  | nil =>
    intro st st' brk hL _ hrun
    rw [runLoop_nil] at hrun
    injection hrun with h'
    injection h' with h1 h2
    subst h1
    exact hL
  | cons s rest ih =>
    intro st st' brk hL hchain hrun
    rw [List.map_cons, List.chain_cons] at hchain
    obtain ⟨hsub, hchain'⟩ := hchain
    rcases hlb : loopBody cfg st s with e | ⟨st1, brk1⟩
    · unfold runLoop at hrun
      rw [hlb] at hrun
      simp at hrun
    · have hL1 : logInv st1 := loopBody_logInv cfg st s st1 brk1 hsub hL hlb
      have hprev1 : st1.previouslyCompleted = stepCompleted s :=
        (loopBody_fields cfg st s st1 brk1 hlb).1
      cases brk1
      · rw [runLoop_cons_continue cfg st st1 s rest hlb] at hrun
        exact ih st1 st' brk hL1 (by rw [hprev1]; exact hchain') hrun
      · rw [runLoop_cons_break cfg st st1 s rest hlb] at hrun
        injection hrun with h'
        injection h' with h1 h2
        subst h1
        exact hL1

theorem countP_le_one_of_pairwise_disjoint (l : List (Finset ℕ))
    (h : l.Pairwise Disjoint) (j : ℕ) :
    l.countP (fun s => decide (j ∈ s)) ≤ 1 := by
  induction l with
  | nil => simp
  | cons a l ih =>
    rw [List.countP_cons]
    obtain ⟨hd, hl⟩ := List.pairwise_cons.mp h
    by_cases hj : j ∈ a
    · have hzero : l.countP (fun s => decide (j ∈ s)) = 0 := by
        rw [List.countP_eq_zero]
        intro s hs
        simp only [decide_eq_true_eq]
        intro hjs
        exact Finset.disjoint_left.mp (hd s hs) hj hjs
      simp [hzero, hj]
    · simp [hj, ih hl]

/-! ### Helper lemmas: finalization -/

theorem oracleCallTrace_ok (getTrace : OracleExperiment → List ℚ)
    (target : Params) (lvl : ℕ) (l : List (ℕ × List (String × Params)))
    (h : ∀ x ∈ l, x.2 ≠ []) :
    oracleCallTrace getTrace (get_oracle_experiment_from_params target l lvl)
      = Except.ok
          (getTrace ⟨l.map (fun x => mkOracleTrial target 0 x.2)⟩) := by
  unfold get_oracle_experiment_from_params
  rw [attachOracleTrials_ok target 0 ⟨[]⟩ l h]
  unfold oracleCallTrace
  simp

theorem oracle_value_ok (getTrace : OracleExperiment → List ℚ)
    (target params : Params)
    (hg : ∀ e, (getTrace e).length = e.trials.length) :
    ∃ v, _get_oracle_value_of_params getTrace target params = Except.ok v := by
  unfold _get_oracle_value_of_params
  rw [oracleCallTrace_ok getTrace target DEFAULT_LOG_LEVEL
    [(0, [("0_0", params)])] (by simp)]
  have hlen : (getTrace
      ⟨[((0 : ℕ), [("0_0", params)])].map
        (fun x => mkOracleTrial target 0 x.2)⟩).length = 1 := by
    rw [hg]
    simp
  obtain ⟨v, hv⟩ := List.length_eq_one.mp hlen
  rw [hv]
  exact ⟨v, rfl⟩

theorem collectOracleValues_ok (getTrace : OracleExperiment → List ℚ)
    (target : Params)
    (hg : ∀ e, (getTrace e).length = e.trials.length) :
    ∀ l : List Params, ∃ vs,
      collectOracleValues getTrace target l = Except.ok vs
      ∧ vs.length = l.length := by
  intro l
  induction l with
  | nil => exact ⟨[], rfl, rfl⟩
  | cons p rest ih =>
    obtain ⟨v, hv⟩ := oracle_value_ok getTrace target p hg
    obtain ⟨vs, hvs, hlen⟩ := ih
    refine ⟨v :: vs, ?_, by simp [hlen]⟩
    unfold collectOracleValues
    rw [hv, hvs]

theorem oracle_trace_from_arms_ok (getTrace : OracleExperiment → List ℚ)
    (target : Params) (l : List (List Arm)) (h : ∀ a ∈ l, a ≠ []) :
    _get_oracle_trace_from_arms getTrace target l
      = Except.ok
          (getTrace ⟨l.enum.map (fun x => mkOracleTrial target 0 x.2)⟩) := by
  unfold _get_oracle_trace_from_arms
  apply oracleCallTrace_ok
  intro x hx
  have hmem : x.2 ∈ l := by
    have hm := List.mem_map_of_mem Prod.snd hx
    rwa [List.enum_map_snd] at hm
  exact h x.2 hmem

theorem finalize_ok (cfg : ReplicationConfig)
    (getTrace : OracleExperiment → List ℚ) (st : LoopState)
    (hg : ∀ e, (getTrace e).length = e.trials.length)
    (harms : armsInv st) :
    ∃ r, finalizeReplication cfg getTrace st = Except.ok r
      ∧ r.cost_trace = st.costTrace
      ∧ r.inference_trace.length = st.bestParamsList.length
      ∧ r.oracle_trace.length = st.evaluatedArmsList.length
      ∧ _get_oracle_trace_from_arms getTrace cfg.target_fidelity_and_task
          st.evaluatedArmsList = Except.ok r.oracle_trace
      ∧ collectOracleValues getTrace cfg.target_fidelity_and_task
          st.bestParamsList = Except.ok r.inference_trace := by
  obtain ⟨vs, hvs, hvslen⟩ := collectOracleValues_ok getTrace
    cfg.target_fidelity_and_task hg st.bestParamsList
  have htr := oracle_trace_from_arms_ok getTrace cfg.target_fidelity_and_task
    st.evaluatedArmsList harms
  have hotlen : (getTrace
      ⟨st.evaluatedArmsList.enum.map
        (fun x => mkOracleTrial cfg.target_fidelity_and_task 0 x.2)⟩).length
      = st.evaluatedArmsList.length := by
    rw [hg]
    simp
  set ot := getTrace
    ⟨st.evaluatedArmsList.enum.map
      (fun x => mkOracleTrial cfg.target_fidelity_and_task 0 x.2)⟩ with hot
  refine ⟨mkBenchmarkResult cfg vs ot st.costTrace, ?_, rfl, hvslen, hotlen,
    htr, hvs⟩
  unfold finalizeReplication
  rw [hvs, htr]

/-! ### Helper lemmas: whole-loop invariants -/

theorem initial_StInv (cfg : ReplicationConfig) :
    StInv cfg initialLoopState :=
  ⟨rfl, rfl, fun _ => rfl, fun _ => rfl⟩

theorem initial_armsInv : armsInv initialLoopState := by
  intro a ha
  cases ha

theorem initial_logInv : logInv initialLoopState :=
  ⟨List.Pairwise.nil, fun s hs => absurd hs (List.not_mem_nil s)⟩

theorem runLoop_StInv (cfg : ReplicationConfig) (steps : List LoopStep)
    (st st' : LoopState) (brk : Bool) (hP : StInv cfg st)
    (hrun : runLoop cfg st steps = Except.ok (st', brk)) : StInv cfg st' :=
  runLoop_preserves cfg (StInv cfg) (fun _ => True)
    (fun st step st' brk hp _ hlb => loopBody_StInv cfg st step st' brk hp hlb)
    steps st st' brk (fun _ _ => trivial) hP hrun

theorem runLoop_armsInv (cfg : ReplicationConfig) (steps : List LoopStep)
    (st st' : LoopState) (brk : Bool) (hA : armsInv st)
    (hsteps : ∀ s ∈ steps, ∀ t ∈ s.trials, t.arms ≠ [])
    (hrun : runLoop cfg st steps = Except.ok (st', brk)) : armsInv st' :=
  runLoop_preserves cfg armsInv (fun s => ∀ t ∈ s.trials, t.arms ≠ [])
    (fun st step st' brk hp hpre hlb =>
      loopBody_armsInv cfg st step st' brk hp hpre hlb)
    steps st st' brk hsteps hA hrun

theorem benchmark_replication_eq (cfg : ReplicationConfig)
    (getTrace : OracleExperiment → List ℚ) (steps : List LoopStep)
    (st : LoopState) (brk : Bool) (r : BenchmarkResult)
    (h1 : runLoop cfg initialLoopState steps = Except.ok (st, brk))
    (h2 : finalizeReplication cfg getTrace st = Except.ok r) :
    benchmark_replication cfg getTrace steps = Except.ok (r, st.warnings) := by
  unfold benchmark_replication
  rw [h1]
  show (match finalizeReplication cfg getTrace st with
    | Except.error e => Except.error e
    | Except.ok result => Except.ok (result, st.warnings)) = _
  rw [h2]

theorem finalize_inv (cfg : ReplicationConfig)
    (getTrace : OracleExperiment → List ℚ) (st : LoopState)
    (r : BenchmarkResult)
    (h : finalizeReplication cfg getTrace st = Except.ok r) :
    ∃ it ot,
      collectOracleValues getTrace cfg.target_fidelity_and_task
        st.bestParamsList = Except.ok it
      ∧ _get_oracle_trace_from_arms getTrace cfg.target_fidelity_and_task
        st.evaluatedArmsList = Except.ok ot
      ∧ r = mkBenchmarkResult cfg it ot st.costTrace := by
  unfold finalizeReplication at h
  split at h
  · simp at h
  · simp at h
  · rename_i it ot hc hot
    injection h with h'
    exact ⟨it, ot, hc, hot, h'.symm⟩

theorem bookkeep_bestParams_irrelevant (cfg : ReplicationConfig)
    (st : LoopState) (step : LoopStep) (bp : List Params) (newly : Finset ℕ)
    (hu : inferenceUnsupported cfg) :
    bookkeep cfg st { step with bestParams := bp } newly
      = bookkeep cfg st step newly := by
  unfold bookkeep
  by_cases hcard : 0 < newly.card
  · rw [if_pos hcard, if_pos hcard]
    unfold bookkeepInference
    rw [if_pos hu, if_pos hu]
    rfl
  · rw [if_neg hcard, if_neg hcard]

theorem loopBody_bestParams_irrelevant (cfg : ReplicationConfig)
    (st : LoopState) (step : LoopStep) (bp : List Params)
    (hu : inferenceUnsupported cfg) :
    loopBody cfg st { step with bestParams := bp } = loopBody cfg st step := by
  unfold loopBody
  show (match bookkeep cfg (recordStep st step) { step with bestParams := bp }
      (stepNewly st step) with
    | Except.error e => Except.error e
    | Except.ok st2 => Except.ok (timeoutCheck cfg st2 step)) = _
  rw [bookkeep_bestParams_irrelevant cfg (recordStep st step) step bp
    (stepNewly st step) hu]

theorem runLoop_bestParams_irrelevant (cfg : ReplicationConfig)
    (hu : inferenceUnsupported cfg) (g : LoopStep → List Params) :
    ∀ (steps : List LoopStep) (st : LoopState),
      runLoop cfg st (steps.map (fun s => { s with bestParams := g s }))
        = runLoop cfg st steps := by
  intro steps
  induction steps with
  | nil => intro st; rfl
  | cons s rest ih =>
    intro st
    simp only [List.map_cons]
    unfold runLoop
    rw [loopBody_bestParams_irrelevant cfg st s (g s) hu]
    rcases hlb : loopBody cfg st s with e | ⟨st1, brk1⟩
    · rfl
    · cases brk1
      · exact ih st1
      · rfl

/-! ### Claim theorems about the loop -/

/-- C1: when the completed/early-stopped statuses are absorbing across the
snapshots the loop observes, the per-iteration "newly completed" sets the
loop computes (recorded in `newlySetsLog`) are pairwise disjoint, so each
trial index lands in at most one of them — its arms are appended to the
evaluated-arms list at most once and its runtime enters the cumulative cost
at most once. -/
theorem newly_completed_sets_disjoint (cfg : ReplicationConfig)
    (steps : List LoopStep) (st' : LoopState) (brk : Bool)
    (habs : steps.Chain' (fun a b => absorbing a.trials b.trials))
    (hrun : runLoop cfg initialLoopState steps = Except.ok (st', brk)) :
    st'.newlySetsLog.Pairwise Disjoint
    ∧ ∀ j : ℕ, st'.newlySetsLog.countP (fun s => decide (j ∈ s)) ≤ 1 := by
  have hchain : List.Chain (· ⊆ ·) initialLoopState.previouslyCompleted
      (steps.map stepCompleted) := by
    cases steps with
    | nil => exact List.Chain.nil
    | cons a l =>
      rw [List.map_cons]
      apply List.Chain.cons
      · exact Finset.empty_subset _
      · have h1 : List.Chain (fun x y => absorbing x.trials y.trials) a l := habs
        exact List.chain_map_of_chain stepCompleted
          (fun x y hxy => absorbing_subset x.trials y.trials hxy) h1
  have hL : logInv st' :=
    runLoop_logInv cfg steps initialLoopState st' brk initial_logInv hchain hrun
  exact ⟨hL.1, fun j => countP_le_one_of_pairwise_disjoint _ hL.1 j⟩

/-- Witness for C1: a two-step run completing trial 0 and then trial 1 logs
the disjoint sets `{0}` and `{1}`. -/
theorem newly_completed_sets_disjoint_witness :
    (⟨{0, 1}, 2, [1, 2], [], [[("0_0", [])], [("1_0", [])]], [],
        [{0}, {1}]⟩ : LoopState).newlySetsLog.Pairwise Disjoint :=
  (newly_completed_sets_disjoint
    { is_moo := true
      target_fidelity_and_task := []
      report_inference_value_as_trace := false
      baseline_value := 0
      optimal_value := 1
      timeout_hours := none
      hasSimulatedBackend := true
      totalRuntime := fun _ => 0 }
    [{ trials := [⟨0, TrialStatus.COMPLETED, [("0_0", [])]⟩]
       bestParams := []
       simulatorTime := 1
       elapsedHours := 0 },
     { trials := [⟨0, TrialStatus.COMPLETED, [("0_0", [])]⟩,
                  ⟨1, TrialStatus.COMPLETED, [("1_0", [])]⟩]
       bestParams := []
       simulatorTime := 2
       elapsedHours := 0 }]
    ⟨{0, 1}, 2, [1, 2], [], [[("0_0", [])], [("1_0", [])]], [], [{0}, {1}]⟩
    false
    (by exact List.Chain.cons (by decide) List.Chain.nil)
    (by decide)).1

/-- C2: with a finite timeout, once a consumed progress step leaves
`timeout - elapsed ≤ 0`, the loop logs the timeout warning and exits without
consuming the remaining steps and without raising, and the replication still
returns a well-formed result carrying the partial traces. -/
theorem timeout_stops_loop (cfg : ReplicationConfig) (timeout : ℚ)
    (getTrace : OracleExperiment → List ℚ)
    (steps1 : List LoopStep) (step : LoopStep) (rest : List LoopStep)
    (st st2 : LoopState)
    (hT : cfg.timeout_hours = some timeout)
    (hpre : runLoop cfg initialLoopState steps1 = Except.ok (st, false))
    (hbk : bookkeep cfg (recordStep st step) step (stepNewly st step)
      = Except.ok st2)
    (hto : timeout - step.elapsedHours ≤ 0)
    (hg : ∀ e, (getTrace e).length = e.trials.length)
    (harms : armsInv st2) :
    runLoop cfg initialLoopState (steps1 ++ step :: rest)
      = Except.ok ({ st2 with
          warnings := st2.warnings ++ ["The optimization loop timed out."] },
          true)
    ∧ ∃ r, benchmark_replication cfg getTrace (steps1 ++ step :: rest)
        = Except.ok (r, st2.warnings ++ ["The optimization loop timed out."])
        ∧ r.cost_trace = st2.costTrace := by
  have htc : timeoutCheck cfg st2 step
      = ({ st2 with
          warnings := st2.warnings ++ ["The optimization loop timed out."] },
          true) := by
    unfold timeoutCheck
    rw [hT]
    exact if_pos hto
  have hlb : loopBody cfg st step
      = Except.ok ({ st2 with
          warnings := st2.warnings ++ ["The optimization loop timed out."] },
          true) := by
    unfold loopBody
    rw [hbk]
    show Except.ok (timeoutCheck cfg st2 step) = _
    rw [htc]
  have hrunfull : runLoop cfg initialLoopState (steps1 ++ step :: rest)
      = Except.ok ({ st2 with
          warnings := st2.warnings ++ ["The optimization loop timed out."] },
          true) := by
    rw [runLoop_append cfg steps1 (step :: rest) initialLoopState st hpre]
    exact runLoop_cons_break cfg st _ step rest hlb
  refine ⟨hrunfull, ?_⟩
  have harms3 : armsInv { st2 with
      warnings := st2.warnings ++ ["The optimization loop timed out."] } :=
    harms
  obtain ⟨r, hfin, hcost, _, _, _, _⟩ := finalize_ok cfg getTrace
    { st2 with
      warnings := st2.warnings ++ ["The optimization loop timed out."] }
    hg harms3
  exact ⟨r, benchmark_replication_eq cfg getTrace (steps1 ++ step :: rest)
    _ true r hrunfull hfin, hcost⟩

/-- Witness for C2: a one-step run with a 1-hour timeout and 2 elapsed hours
breaks out with the warning logged. -/
theorem timeout_stops_loop_witness :
    runLoop
      { is_moo := true
        target_fidelity_and_task := []
        report_inference_value_as_trace := false
        baseline_value := 0
        optimal_value := 1
        timeout_hours := some 1
        hasSimulatedBackend := true
        totalRuntime := fun _ => 0 }
      initialLoopState
      [{ trials := [⟨0, TrialStatus.COMPLETED, [("0_0", [])]⟩]
         bestParams := []
         simulatorTime := 3
         elapsedHours := 2 }]
      = Except.ok
          (⟨{0}, 3, [3], [], [[("0_0", [])]],
            ["The optimization loop timed out."], [{0}]⟩, true) :=
  (timeout_stops_loop
    { is_moo := true
      target_fidelity_and_task := []
      report_inference_value_as_trace := false
      baseline_value := 0
      optimal_value := 1
      timeout_hours := some 1
      hasSimulatedBackend := true
      totalRuntime := fun _ => 0 }
    1
    (fun e => e.trials.map (fun _ => 0))
    []
    { trials := [⟨0, TrialStatus.COMPLETED, [("0_0", [])]⟩]
      bestParams := []
      simulatorTime := 3
      elapsedHours := 2 }
    []
    initialLoopState
    ⟨{0}, 3, [3], [], [[("0_0", [])]], [], [{0}]⟩
    rfl
    rfl
    (by decide)
    (by norm_num)
    (fun e => by simp)
    (by decide)).1

/-- C3: for a multi-objective or multi-fidelity/multi-task problem the
method's `get_best_parameters` is never consulted (the run result is
unchanged under arbitrary replacement of every step's would-be answer), the
best-parameters list stays empty and the final inference trace is empty,
while the oracle trace is still computed from the evaluated arms; conversely,
for a single-objective problem with empty target fidelity/task parameters, a
best parameterization is recorded on exactly the steps with newly completed
trials (one per cost-trace entry). -/
theorem inference_trace_gating (cfg : ReplicationConfig)
    (getTrace : OracleExperiment → List ℚ) (steps : List LoopStep)
    (st : LoopState) (brk : Bool)
    (hrun : runLoop cfg initialLoopState steps = Except.ok (st, brk)) :
    (inferenceUnsupported cfg →
      st.bestParamsList = []
      ∧ (∀ r, finalizeReplication cfg getTrace st = Except.ok r →
          r.inference_trace = []
          ∧ _get_oracle_trace_from_arms getTrace cfg.target_fidelity_and_task
              st.evaluatedArmsList = Except.ok r.oracle_trace)
      ∧ (∀ g : LoopStep → List Params,
          runLoop cfg initialLoopState
            (steps.map (fun s => { s with bestParams := g s }))
            = Except.ok (st, brk)))
    ∧ (¬ inferenceUnsupported cfg →
        st.bestParamsList.length = st.costTrace.length) := by
  have hinv := runLoop_StInv cfg steps initialLoopState st brk
    (initial_StInv cfg) hrun
  constructor
  · intro hu
    have hbp : st.bestParamsList = [] := hinv.2.2.1 hu
    refine ⟨hbp, ?_, ?_⟩
    · intro r hfin
      obtain ⟨it, ot, hc, hot, hr⟩ := finalize_inv cfg getTrace st r hfin
      rw [hbp] at hc
      have h0 : (Except.ok [] : Except String (List ℚ)) = Except.ok it := hc
      injection h0 with h1
      subst h1
      constructor
      · rw [hr]
        rfl
      · rw [hr]
        exact hot
    · intro g
      rw [runLoop_bestParams_irrelevant cfg hu g steps initialLoopState]
      exact hrun
  · intro hnu
    exact hinv.2.2.2 hnu

/-- Witness for C3: a one-step run of a multi-objective problem records no
best parameters. -/
theorem inference_trace_gating_witness :
    (⟨{0}, 3, [3], [], [[("0_0", [])]], [], [{0}]⟩ : LoopState).bestParamsList
      = [] :=
  ((inference_trace_gating
    { is_moo := true
      target_fidelity_and_task := []
      report_inference_value_as_trace := false
      baseline_value := 0
      optimal_value := 1
      timeout_hours := none
      hasSimulatedBackend := true
      totalRuntime := fun _ => 0 }
    (fun e => e.trials.map (fun _ => 0))
    [{ trials := [⟨0, TrialStatus.COMPLETED, [("0_0", [])]⟩]
       bestParams := []
       simulatorTime := 3
       elapsedHours := 0 }]
    ⟨{0}, 3, [3], [], [[("0_0", [])]], [], [{0}]⟩
    false
    (by decide)).1 (Or.inl rfl)).1

/-- C4: the cost trace has exactly one entry per loop step with newly
completed trials, the evaluated-arms list (the trial groups the oracle trace
is built from) grows in lockstep, and — when the best-point extractor yields
one value per trial — the finalized result satisfies
`len(oracle_trace) = len(cost_trace)`, with
`len(inference_trace) = len(oracle_trace)` whenever the inference trace is
supported. -/
theorem trace_length_invariants (cfg : ReplicationConfig)
    (getTrace : OracleExperiment → List ℚ) (steps : List LoopStep)
    (st : LoopState) (brk : Bool)
    (hrun : runLoop cfg initialLoopState steps = Except.ok (st, brk))
    (hg : ∀ e, (getTrace e).length = e.trials.length)
    (hsteps : ∀ s ∈ steps, ∀ t ∈ s.trials, t.arms ≠ []) :
    st.costTrace.length
        = st.newlySetsLog.countP (fun s => decide (s ≠ ∅))
    ∧ st.evaluatedArmsList.length = st.costTrace.length
    ∧ ∃ r, finalizeReplication cfg getTrace st = Except.ok r
        ∧ r.cost_trace = st.costTrace
        ∧ r.oracle_trace.length = r.cost_trace.length
        ∧ (¬ inferenceUnsupported cfg →
            r.inference_trace.length = r.oracle_trace.length) := by
  have hinv := runLoop_StInv cfg steps initialLoopState st brk
    (initial_StInv cfg) hrun
  have harms := runLoop_armsInv cfg steps initialLoopState st brk
    initial_armsInv hsteps hrun
  obtain ⟨r, hfin, hcost, hitlen, hotlen, _, _⟩ :=
    finalize_ok cfg getTrace st hg harms
  refine ⟨hinv.1, hinv.2.1, r, hfin, hcost, ?_, ?_⟩
  · rw [hotlen, hcost]
    exact hinv.2.1
  · intro hnu
    rw [hitlen, hotlen, hinv.2.2.2 hnu, hinv.2.1]

/-- Witness for C4: a single-objective one-step run has cost-trace length 1,
matching its one non-empty newly-completed set. -/
theorem trace_length_invariants_witness :
    (⟨{0}, 3, [3], [[("x", 0)]], [[("0_0", [])]], [],
        [{0}]⟩ : LoopState).costTrace.length
      = (⟨{0}, 3, [3], [[("x", 0)]], [[("0_0", [])]], [],
          [{0}]⟩ : LoopState).newlySetsLog.countP (fun s => decide (s ≠ ∅)) :=
  (trace_length_invariants
    { is_moo := false
      target_fidelity_and_task := []
      report_inference_value_as_trace := false
      baseline_value := 0
      optimal_value := 1
      timeout_hours := none
      hasSimulatedBackend := true
      totalRuntime := fun _ => 0 }
    (fun e => e.trials.map (fun _ => 0))
    [{ trials := [⟨0, TrialStatus.COMPLETED, [("0_0", [])]⟩]
       bestParams := [[("x", 0)]]
       simulatorTime := 3
       elapsedHours := 0 }]
    ⟨{0}, 3, [3], [[("x", 0)]], [[("0_0", [])]], [], [{0}]⟩
    false
    (by decide)
    (fun e => by simp)
    (by decide)).1

end AxBenchmark
